import Mathlib

/-!
Verification of the core of the opfs-explorer DevTools panel API
(`src/panel/api.ts`): the string escaper, the chunked binary staging
channel, the polling operation dispatcher, the dual-convention eval
adapter, the content-type classifier, and the read/readWithMeta/exists
operation templates.  JavaScript strings are modelled as `List Char`,
byte buffers as `List Nat` (each element a byte value).
-/

/-! ## Escaper (`escapeString`, api.ts lines 316-327) -/

/-- Global single-character replacement, the semantics of
`str.replace(/c/g, rep)` for a single literal character pattern. -/
def replaceAll (t : Char) (rep : List Char) : List Char → List Char
  | [] => []
  | c :: s => (if c = t then rep else [c]) ++ replaceAll t rep s

/-- Embedding of `escapeString` from api.ts: the nine chained global
replaces, applied in source order (backslash first). -/
def escapeString (s : List Char) : List Char :=
  replaceAll (Char.ofNat 0x2029) ['\\', 'u', '2', '0', '2', '9']
    (replaceAll (Char.ofNat 0x2028) ['\\', 'u', '2', '0', '2', '8']
      (replaceAll (Char.ofNat 0) ['\\', 'x', '0', '0']
        (replaceAll '\t' ['\\', 't']
          (replaceAll '\r' ['\\', 'r']
            (replaceAll '\n' ['\\', 'n']
              (replaceAll '"' ['\\', '"']
                (replaceAll '\'' ['\\', '\'']
                  (replaceAll '\\' ['\\', '\\'] s))))))))

/-- Value of a hexadecimal digit character, `none` for non-hex characters. -/
def hexVal (c : Char) : Option Nat :=
  if '0' ≤ c ∧ c ≤ '9' then some (c.toNat - 48)
  else if 'a' ≤ c ∧ c ≤ 'f' then some (c.toNat - 87)
  else if 'A' ≤ c ∧ c ≤ 'F' then some (c.toNat - 55)
  else none

/-- Evaluation of the body of a JavaScript single-quoted string literal,
one character of remaining input at a time, up to and including the
closing quote (which must end the input).  Returns the string value the
literal denotes, or `none` on a syntax error.  Handles the escape
sequences of the language: single-character escapes, `\xHH`, `\uHHHH`,
`\0` (not followed by a digit), line continuations, and identity escapes;
legacy octal escapes are rejected as in strict-mode code. -/
def sqGo : List Char → Option (List Char)
  | [] => none
  | c :: rest =>
    if c = '\'' then (if rest = [] then some [] else none)
    else if c = '\\' then
      if rest = [] then none
      else if rest.headD ' ' = 'x' then
        match hexVal ((rest.drop 1).headD ' '), hexVal ((rest.drop 2).headD ' ') with
        | some v1, some v2 =>
          (sqGo (rest.drop 3)).map (fun r => Char.ofNat (16 * v1 + v2) :: r)
        | _, _ => none
      else if rest.headD ' ' = 'u' then
        match hexVal ((rest.drop 1).headD ' '), hexVal ((rest.drop 2).headD ' '),
            hexVal ((rest.drop 3).headD ' '), hexVal ((rest.drop 4).headD ' ') with
        | some v1, some v2, some v3, some v4 =>
          (sqGo (rest.drop 5)).map
            (fun r => Char.ofNat (4096 * v1 + 256 * v2 + 16 * v3 + v4) :: r)
        | _, _, _, _ => none
      else if rest.headD ' ' = 'n' then (sqGo (rest.drop 1)).map (fun r => '\n' :: r)
      else if rest.headD ' ' = 'r' then (sqGo (rest.drop 1)).map (fun r => '\r' :: r)
      else if rest.headD ' ' = 't' then (sqGo (rest.drop 1)).map (fun r => '\t' :: r)
      else if rest.headD ' ' = 'b' then
        (sqGo (rest.drop 1)).map (fun r => Char.ofNat 8 :: r)
      else if rest.headD ' ' = 'f' then
        (sqGo (rest.drop 1)).map (fun r => Char.ofNat 12 :: r)
      else if rest.headD ' ' = 'v' then
        (sqGo (rest.drop 1)).map (fun r => Char.ofNat 11 :: r)
      else if rest.headD ' ' = '0' then
        if '0' ≤ (rest.drop 1).headD 'q' ∧ (rest.drop 1).headD 'q' ≤ '9' then none
        else (sqGo (rest.drop 1)).map (fun r => Char.ofNat 0 :: r)
      else if '1' ≤ rest.headD ' ' ∧ rest.headD ' ' ≤ '9' then none
      else if rest.headD ' ' = '\n' ∨ rest.headD ' ' = '\r' then sqGo (rest.drop 1)
      else (sqGo (rest.drop 1)).map (fun r => rest.headD ' ' :: r)
    else if c = '\n' ∨ c = '\r' then none
    else (sqGo rest).map (fun r => c :: r)
termination_by l => l.length
decreasing_by
  all_goals simp [List.length_drop]
  all_goals omega

/-- Evaluation of a complete JavaScript single-quoted string literal:
an opening quote followed by the body and the closing quote. -/
def jsEvalSQ (lit : List Char) : Option (List Char) :=
  match lit with
  | [] => none
  | c :: rest => if c = '\'' then sqGo rest else none

/-! ## Binary staging channel (`stageBinaryData`, api.ts lines 531-561) -/

/-- The staging chunk size: `const CHUNK = 65536` (64 KB of base64). -/
def CHUNK : Nat := 65536

/-- `Math.ceil(base64.length / CHUNK) || 1`: ceiling division, with the
JavaScript `|| 1` replacing a zero result by one. -/
def totalChunks (len : Nat) : Nat :=
  if (len + (CHUNK - 1)) / CHUNK = 0 then 1 else (len + (CHUNK - 1)) / CHUNK

/-- `base64.slice(s, e)` for numeric arguments with `0 ≤ s ≤ e`. -/
def sliceJs (l : List Char) (s e : Nat) : List Char := (l.drop s).take (e - s)

/-- The chunks produced by the staging loop of `stageBinaryData`:
chunk i is `base64.slice(i * CHUNK, (i + 1) * CHUNK)`,
for `i` in `0 .. totalChunks - 1`. -/
def stageSlices (b : List Char) : List (List Char) :=
  (List.range (totalChunks b.length)).map
    (fun i => sliceJs b (i * CHUNK) ((i + 1) * CHUNK))

/-- The scratch storage of the inspected page, restricted to the slots
`key_i` of one staging key (the key itself is fresh per call, so slots are
indexed by the chunk index alone). -/
def ScratchStore : Type := Nat → Option (List Char)

/-- `sessionStorage.setItem(key_i, v)`. -/
def setItem (st : ScratchStore) (i : Nat) (v : List Char) : ScratchStore :=
  fun j => if j = i then some v else st j

/-- `sessionStorage.removeItem(key_i)`. -/
def removeItem (st : ScratchStore) (i : Nat) : ScratchStore :=
  fun j => if j = i then none else st j

/-- The `for` loop of `stageBinaryData` that stages chunk after chunk via
dispatched `setItem` operations.  `failAt i = true` models the dispatch of
chunk i rejecting (the chunk is then not stored); the loop stops at the
first failure with `some i`, the number of successfully staged chunks
being exactly i.  Each stored value is the chunk itself: by the escaper
round-trip (C1), the `'${safeChunk}'` literal inside the generated
`setItem` code evaluates back to the chunk. -/
def stageLoop (failAt : Nat → Bool) :
    List (List Char) → Nat → ScratchStore → ScratchStore × Option Nat
  | [], _, st => (st, none)
  | c :: rest, i, st =>
    if failAt i then (st, some i)
    else stageLoop failAt rest (i + 1) (setItem st i c)

/-- The cleanup loop of the `catch` block:
`for (i = 0; i < staged; i++) removeItem(key_i)`. -/
def cleanupStore (st : ScratchStore) (staged : Nat) : ScratchStore :=
  (List.range staged).foldl removeItem st

/-- Embedding of `stageBinaryData`: run the staging loop over the 64 KB
slices; on failure at chunk i, remove the staged chunks `0 .. i-1` and
propagate the failure (`some i`); on success return `none` as the error
component. -/
def stageBinaryData (base64 : List Char) (failAt : Nat → Bool)
    (st : ScratchStore) : ScratchStore × Option Nat :=
  match stageLoop failAt (stageSlices base64) 0 st with
  | (st1, none) => (st1, none)
  | (st1, some i) => (cleanupStore st1 i, some i)

/-! ## Operation dispatcher polling loop (`evalInPage`, api.ts lines 151-308) -/

/-- Observable events of one dispatched operation, in the order the
dispatcher issues them: a slot-read poll (`executeEval(window[opId])`),
the best-effort scratch-slot deletion, and the terminal resolutions and
rejections of the caller promise. -/
inductive PollEv where
  | read
  | deleteSlot
  | rejectTimeout
  | resolveDone
  | rejectError
  | rejectPollError
  | rejectNoResult
deriving DecidableEq

/-- What one slot-read poll observes: an evaluation exception, a null
result, or a record with status pending, done or error. -/
inductive ReadRes where
  | exn
  | nullRes
  | pending
  | done
  | errorRes
deriving DecidableEq

/-- Trace of the `pollForResult` loop from a given value of the attempt
counter.  `env n` is what the n-th poll (1-based, `n = attempts` after the
increment) observes.  Each entry increments `attempts`; if the counter
exceeds `maxAttempts` the slot is best-effort deleted and the caller is
rejected with the timeout error without issuing another poll; otherwise a
poll is issued and the loop continues or terminates according to the
observed status, including the Safari-only bounded retries on transient
exceptions (fewer than 3 attempts) and null results (fewer than 5). -/
def pollTrace (saf : Bool) (maxAttempts : Nat) (env : Nat → ReadRes)
    (attempts : Nat) : List PollEv :=
  if maxAttempts < attempts + 1 then [PollEv.deleteSlot, PollEv.rejectTimeout]
  else
    match env (attempts + 1) with
    | ReadRes.pending => PollEv.read :: pollTrace saf maxAttempts env (attempts + 1)
    | ReadRes.done => [PollEv.read, PollEv.deleteSlot, PollEv.resolveDone]
    | ReadRes.errorRes => [PollEv.read, PollEv.deleteSlot, PollEv.rejectError]
    | ReadRes.exn =>
      if saf && attempts + 1 < 3 then
        PollEv.read :: pollTrace saf maxAttempts env (attempts + 1)
      else [PollEv.read, PollEv.rejectPollError]
    | ReadRes.nullRes =>
      if saf && attempts + 1 < 5 then
        PollEv.read :: pollTrace saf maxAttempts env (attempts + 1)
      else [PollEv.read, PollEv.rejectNoResult]
termination_by maxAttempts + 1 - attempts
decreasing_by
  all_goals omega

/-! ## Eval adapter (`executeEval`, api.ts lines 43-137) -/

/-- The structured error record `executeEval` builds from a caught
error e: `isError: true`, `code`, `description` and `value` all set to
`String(e)`, empty `details`, `isException: false`. -/
structure ExceptionInfo where
  isError : Bool
  code : List Char
  description : List Char
  details : List (List Char)
  isException : Bool
  value : List Char
deriving DecidableEq

/-- A value produced by evaluating code in the inspected page:
`undefined` or some opaque page value. -/
inductive EvalValue where
  | undef
  | val (tag : Nat)
deriving DecidableEq

/-- Shape of a resolved host promise: Safari may resolve with the
`[result, exceptionInfo]` tuple or with a bare result. -/
inductive PromiseShape where
  | bare (v : EvalValue)
  | tuple (v : EvalValue) (e : Option ExceptionInfo)
deriving DecidableEq

/-- The possible behaviours of one invocation of the host primitive
`devtools.inspectedWindow.eval`: it may report through the completion
callback (Chrome), return a promise that resolves to a bare value or to a
tuple, or rejects (Safari), or throw synchronously. -/
inductive HostBehavior where
  | callback (v : EvalValue) (e : Option ExceptionInfo)
  | promiseResolve (r : PromiseShape)
  | promiseReject (err : List Char)
  | throwsSync (err : List Char)
deriving DecidableEq

/-- The structured error record built from a stringified error. -/
def errRecord (err : List Char) : ExceptionInfo :=
  { isError := true, code := err, description := err, details := [],
    isException := false, value := err }

/-- The body of the promise executor of `executeEval` without its
`try`/`catch`: invoking the host primitive and normalising the callback
and promise conventions into the `[value, errorInfo]` tuple.  A promise
rejection is normalised by the `.catch` handler; only a synchronous throw
of the primitive escapes as `Except.error`. -/
def hostInvoke : HostBehavior → Except (List Char) (EvalValue × Option ExceptionInfo)
  | HostBehavior.callback v e => Except.ok (v, e)
  | HostBehavior.promiseResolve (PromiseShape.bare v) => Except.ok (v, none)
  | HostBehavior.promiseResolve (PromiseShape.tuple v e) => Except.ok (v, e)
  | HostBehavior.promiseReject err => Except.ok (EvalValue.undef, some (errRecord err))
  | HostBehavior.throwsSync err => Except.error err

/-- Embedding of `executeEval`: the `try`/`catch` around the executor
body turns a synchronous throw of the host primitive into a resolution
with `[undefined, structured error record]`, so the returned promise
always resolves with the tuple form. -/
def executeEval (b : HostBehavior) : EvalValue × Option ExceptionInfo :=
  match hostInvoke b with
  | Except.ok r => r
  | Except.error err => (EvalValue.undef, some (errRecord err))

/-! ## Content-type classifier (`__opfs_detectFileType` and helpers,
injected page code in OPFS_HELPERS, api.ts lines 330-521) -/

/-- `s.startsWith(p)` on JavaScript strings. -/
def startsWithL (s p : List Char) : Bool := s.take p.length == p

/-- `s.endsWith(p)` on JavaScript strings. -/
def endsWithL (s p : List Char) : Bool := s.drop (s.length - p.length) == p

/-- `s.toLowerCase()`; the inspected names are compared against ASCII
extension lists, for which ASCII lowercasing coincides with the host. -/
def toLowerL (s : List Char) : List Char := s.map Char.toLower

/-- A file as the injected classifier sees it: `name`, declared MIME
`type`, `size`, and byte access to its `content`. -/
structure JsFile where
  name : List Char
  type : List Char
  size : Nat
  content : List Nat

/-- `__opfs_textExtensions`: the known text file extensions. -/
def textExtensions : List (List Char) :=
  [ ".txt".toList, ".json".toList, ".js".toList, ".jsx".toList, ".ts".toList,
    ".tsx".toList, ".css".toList, ".scss".toList, ".sass".toList,
    ".html".toList, ".htm".toList, ".md".toList, ".markdown".toList,
    ".xml".toList, ".yaml".toList, ".yml".toList, ".toml".toList,
    ".ini".toList, ".cfg".toList, ".env".toList, ".gitignore".toList,
    ".sh".toList, ".bash".toList, ".zsh".toList, ".fish".toList,
    ".py".toList, ".rb".toList, ".php".toList, ".java".toList, ".c".toList,
    ".cpp".toList, ".h".toList, ".hpp".toList, ".rs".toList, ".go".toList,
    ".swift".toList, ".kt".toList, ".sql".toList, ".graphql".toList,
    ".vue".toList, ".svelte".toList, ".astro".toList,
    ".scene".toList, ".prefab".toList, ".asset".toList, ".meta".toList,
    ".shader".toList, ".glsl".toList, ".wgsl".toList,
    ".hlsl".toList, ".material".toList, ".anim".toList, ".controller".toList,
    ".tscn".toList, ".gd".toList, ".tres".toList,
    ".godot".toList, ".unity".toList,
    ".conf".toList, ".config".toList, ".lock".toList, ".map".toList,
    ".csv".toList, ".tsv".toList, ".log".toList,
    ".properties".toList, ".plist".toList, ".strings".toList, ".tf".toList,
    ".hcl".toList, ".proto".toList,
    ".lua".toList, ".r".toList, ".dart".toList, ".ex".toList, ".exs".toList,
    ".erl".toList, ".hs".toList, ".elm".toList,
    ".clj".toList, ".cljs".toList, ".coffee".toList, ".asm".toList,
    ".s".toList ]

/-- `__opfs_binaryExtensions`: the known binary file extensions. -/
def binaryExtensions : List (List Char) :=
  [ ".wasm".toList, ".db".toList, ".sqlite".toList, ".sqlite3".toList,
    ".bin".toList, ".dat".toList, ".exe".toList, ".dll".toList,
    ".so".toList, ".dylib".toList, ".o".toList, ".obj".toList,
    ".lib".toList, ".a".toList, ".class".toList, ".pyc".toList, ".pyo".toList,
    ".zip".toList, ".tar".toList, ".gz".toList, ".tgz".toList, ".bz2".toList,
    ".xz".toList, ".7z".toList, ".rar".toList,
    ".pdf".toList, ".doc".toList, ".docx".toList, ".xls".toList,
    ".xlsx".toList, ".ppt".toList, ".pptx".toList,
    ".mp3".toList, ".mp4".toList, ".avi".toList, ".mov".toList,
    ".mkv".toList, ".wav".toList, ".flac".toList, ".ogg".toList, ".aac".toList,
    ".pb".toList, ".onnx".toList, ".parquet".toList, ".arrow".toList,
    ".npy".toList, ".npz".toList,
    ".ttf".toList, ".otf".toList, ".woff".toList, ".woff2".toList ]

/-- The image extensions of `__opfs_isImageFile`. -/
def imageExtensions : List (List Char) :=
  [ ".jpg".toList, ".jpeg".toList, ".png".toList, ".gif".toList,
    ".webp".toList, ".svg".toList, ".ico".toList, ".bmp".toList,
    ".avif".toList ]

/-- `__opfs_isImageFile`: `image/*` MIME type or a known image extension
of the lowercased name. -/
def isImageFile (f : JsFile) : Bool :=
  startsWithL f.type ( "image/".toList) ||
    imageExtensions.any (fun e => endsWithL (toLowerL f.name) e)

/-- The text-like declared MIME types (strategy 2 of the classifier and
the first check of `__opfs_isTextFile`). -/
def mimeTextLike (t : List Char) : Bool :=
  startsWithL t ( "text/".toList) || t == "application/json".toList ||
    t == "application/javascript".toList || t == "application/xml".toList

/-- The always-binary declared MIME types (strategy 2 of the classifier). -/
def mimeBinaryLike (t : List Char) : Bool :=
  t == "application/octet-stream".toList || t == "application/wasm".toList ||
    startsWithL t ( "audio/".toList) || startsWithL t ( "video/".toList) ||
    t == "application/pdf".toList || t == "application/zip".toList ||
    (startsWithL t ( "application/vnd.".toList) &&
      !(t == "application/vnd.apple.mpegurl".toList))

/-- Strategy 3a: the lowercased name ends with a known text extension. -/
def extMatchesText (name : List Char) : Bool :=
  textExtensions.any (fun e => endsWithL (toLowerL name) e)

/-- Strategy 3b: the lowercased name ends with a known binary extension. -/
def extMatchesBinary (name : List Char) : Bool :=
  binaryExtensions.any (fun e => endsWithL (toLowerL name) e)

/-- The sniffing sample: `file.slice(0, Math.min(4096, file.size))`. -/
def sampleBytes (f : JsFile) : List Nat := f.content.take (min 4096 f.size)

/-- The magic-byte signature table over the first four sample bytes,
guarded by `bytes.length >= 2`; `b2`/`b3` default to 0 when absent. -/
def magicMatch (bytes : List Nat) : Bool :=
  if bytes.length < 2 then false
  else
    let b0 := bytes.getD 0 0
    let b1 := bytes.getD 1 0
    let b2 := if bytes.length > 2 then bytes.getD 2 0 else 0
    let b3 := if bytes.length > 3 then bytes.getD 3 0 else 0
    (b0 == 0x89 && b1 == 0x50 && b2 == 0x4E && b3 == 0x47) ||
    (b0 == 0xFF && b1 == 0xD8) ||
    (b0 == 0x47 && b1 == 0x49 && b2 == 0x46) ||
    (b0 == 0x25 && b1 == 0x50 && b2 == 0x44 && b3 == 0x46) ||
    (b0 == 0x50 && b1 == 0x4B) ||
    (b0 == 0x7F && b1 == 0x45 && b2 == 0x4C && b3 == 0x46) ||
    (b0 == 0x00 && b1 == 0x61 && b2 == 0x73 && b3 == 0x6D) ||
    (b0 == 0x53 && b1 == 0x51 && b2 == 0x4C && b3 == 0x69) ||
    (b0 == 0x1F && b1 == 0x8B) ||
    (b0 == 0x42 && b1 == 0x5A && b2 == 0x68) ||
    (b0 == 0xFD && b1 == 0x37 && b2 == 0x7A) ||
    (b0 == 0x52 && b1 == 0x49 && b2 == 0x46 && b3 == 0x46) ||
    (b0 == 0x4F && b1 == 0x67 && b2 == 0x67 && b3 == 0x53) ||
    (b0 == 0xCA && b1 == 0xFE && b2 == 0xBA && b3 == 0xBE) ||
    (b0 == 0x4D && b1 == 0x5A) ||
    (b0 == 0x37 && b1 == 0x7A && b2 == 0xBC && b3 == 0xAF)

/-- The byte-statistics loop: counts of null bytes, of bytes above 0x7E
(note: this includes 0x7F), and of control bytes below 0x20 other than
tab, LF and CR, classified by the source's else-if chain. -/
def byteStats : List Nat → Nat × Nat × Nat
  | [] => (0, 0, 0)
  | b :: rest =>
    let s := byteStats rest
    if b = 0 then (s.1 + 1, s.2.1, s.2.2)
    else if 0x7E < b then (s.1, s.2.1 + 1, s.2.2)
    else if b < 0x20 ∧ b ≠ 9 ∧ b ≠ 10 ∧ b ≠ 13 then (s.1, s.2.1, s.2.2 + 1)
    else s

/-- A UTF-8 continuation byte. -/
def contByte (b : Nat) : Bool := 0x80 ≤ b && b ≤ 0xBF

/-- Non-fatal (WHATWG) UTF-8 decoding, as performed by
`new TextDecoder('utf-8', \{ fatal: false \})`: well-formed sequences
decode to their code point, ill-formed bytes become U+FFFD with the
standard resynchronisation. -/
def utf8Decode : List Nat → List Char
  | [] => []
  | b :: rest =>
    if b ≤ 0x7F then Char.ofNat b :: utf8Decode rest
    else if 0xC2 ≤ b && b ≤ 0xDF then
      if contByte (rest.headD 0) then
        Char.ofNat ((b - 0xC0) * 64 + (rest.headD 0 - 0x80)) ::
          utf8Decode (rest.drop 1)
      else Char.ofNat 0xFFFD :: utf8Decode rest
    else if 0xE0 ≤ b && b ≤ 0xEF then
      if (if b == 0xE0 then 0xA0 else 0x80) ≤ rest.headD 0 &&
          rest.headD 0 ≤ (if b == 0xED then 0x9F else 0xBF) then
        if contByte ((rest.drop 1).headD 0) then
          Char.ofNat ((b - 0xE0) * 4096 + (rest.headD 0 - 0x80) * 64 +
            ((rest.drop 1).headD 0 - 0x80)) :: utf8Decode (rest.drop 2)
        else Char.ofNat 0xFFFD :: utf8Decode (rest.drop 1)
      else Char.ofNat 0xFFFD :: utf8Decode rest
    else if 0xF0 ≤ b && b ≤ 0xF4 then
      if (if b == 0xF0 then 0x90 else 0x80) ≤ rest.headD 0 &&
          rest.headD 0 ≤ (if b == 0xF4 then 0x8F else 0xBF) then
        if contByte ((rest.drop 1).headD 0) then
          if contByte ((rest.drop 2).headD 0) then
            Char.ofNat ((b - 0xF0) * 262144 + (rest.headD 0 - 0x80) * 4096 +
              ((rest.drop 1).headD 0 - 0x80) * 64 +
              ((rest.drop 2).headD 0 - 0x80)) :: utf8Decode (rest.drop 3)
          else Char.ofNat 0xFFFD :: utf8Decode (rest.drop 2)
        else Char.ofNat 0xFFFD :: utf8Decode (rest.drop 1)
      else Char.ofNat 0xFFFD :: utf8Decode rest
    else Char.ofNat 0xFFFD :: utf8Decode rest
termination_by l => l.length
decreasing_by
  all_goals simp [List.length_drop]
  all_goals omega

/-- The whitespace set of `String.prototype.trimStart`. -/
def isJsWs (c : Char) : Bool :=
  c.toNat == 0x09 || c.toNat == 0x0A || c.toNat == 0x0B || c.toNat == 0x0C ||
  c.toNat == 0x0D || c.toNat == 0x20 || c.toNat == 0xA0 || c.toNat == 0x1680 ||
  (0x2000 ≤ c.toNat && c.toNat ≤ 0x200A) || c.toNat == 0x2028 ||
  c.toNat == 0x2029 || c.toNat == 0x202F || c.toNat == 0x205F ||
  c.toNat == 0x3000 || c.toNat == 0xFEFF

/-- `t.startsWith(pat)` where `pat` is given by its code points. -/
def startsA (t : List Char) (p : List Nat) : Bool :=
  (t.take p.length).map Char.toNat == p

/-- The content probe: decode the sample as non-fatal UTF-8, trim leading
whitespace and test for the common text-format openers, in source order:
a left brace (123), a left bracket, an angle bracket, a hash, a double
slash, a slash-star, a double dash, a semicolon, a triple dash. -/
def probeText (bytes : List Nat) : Bool :=
  startsA ((utf8Decode bytes).dropWhile isJsWs) [123] ||
  startsA ((utf8Decode bytes).dropWhile isJsWs) [91] ||
  startsA ((utf8Decode bytes).dropWhile isJsWs) [60] ||
  startsA ((utf8Decode bytes).dropWhile isJsWs) [35] ||
  startsA ((utf8Decode bytes).dropWhile isJsWs) [47, 47] ||
  startsA ((utf8Decode bytes).dropWhile isJsWs) [47, 42] ||
  startsA ((utf8Decode bytes).dropWhile isJsWs) [45, 45] ||
  startsA ((utf8Decode bytes).dropWhile isJsWs) [59] ||
  startsA ((utf8Decode bytes).dropWhile isJsWs) [45, 45, 45]

/-- The classification outcomes. -/
inductive FileType where
  | text
  | binary
  | image
  | unknown
deriving DecidableEq

/-- Strategy 4, content sniffing over the sample: magic bytes, then byte
statistics (any null byte, more than 30 percent high bytes, more than 10
percent control bytes - the ratio comparisons are exact in rationals for
samples of at most 4096 bytes, where they agree with the host's
double-precision comparison), then the text probe, then the
all-printable check, else unknown. -/
def sniffBytes (bytes : List Nat) : FileType :=
  if magicMatch bytes then FileType.binary
  else if (byteStats bytes).1 > 0 then FileType.binary
  else if (byteStats bytes).2.1 * 10 > 3 * bytes.length then FileType.binary
  else if (byteStats bytes).2.2 * 10 > bytes.length then FileType.binary
  else if probeText bytes then FileType.text
  else if (byteStats bytes).1 = 0 ∧ (byteStats bytes).2.1 = 0 ∧
      (byteStats bytes).2.2 = 0 then FileType.text
  else FileType.unknown

/-- Embedding of `__opfs_detectFileType`: image check, MIME clues,
extension matching, the empty-file rule, then content sniffing (the
sniffing `try`/`catch` cannot throw in this byte-level model). -/
def detectFileType (f : JsFile) : FileType :=
  if isImageFile f then FileType.image
  else if mimeTextLike f.type then FileType.text
  else if mimeBinaryLike f.type then FileType.binary
  else if extMatchesText f.name then FileType.text
  else if extMatchesBinary f.name then FileType.binary
  else if f.size = 0 then FileType.text
  else sniffBytes (sampleBytes f)

/-! ## read and readWithMeta operation templates (api.ts lines 605-740) -/

/-- `__opfs_isTextFile`: text-like MIME type, else any other non-empty
MIME type means binary, else extension matching on the lowercased name. -/
def isTextFile (f : JsFile) : Bool :=
  if mimeTextLike f.type then true
  else if f.type ≠ [] then false
  else extMatchesText f.name

/-- Models `(size / 1024 / 1024).toFixed(2)`: the size in MiB with two
decimals (exact rational rounding to nearest stands in for the host's
double-precision formatting; no claim depends on the digits). -/
def toFixed2MB (size : Nat) : List Char :=
  (toString ((size * 100 + 524288) / 1048576 / 100)).toList ++ ['.'] ++
    (if (size * 100 + 524288) / 1048576 % 100 < 10 then ['0'] else []) ++
    (toString ((size * 100 + 524288) / 1048576 % 100)).toList

/-- The per-file result of the injected code of `opfsApi.read`, as the
string of characters the operation returns: the large-file sentinel for
sizes above 1 MiB, else the decoded text for text-like files, else the
binary sentinel.  `file.text()` is UTF-8 decoding of the content. -/
def readResult (f : JsFile) : List Char :=
  if f.size > 1024 * 1024 then
    "[BINARY_OR_LARGE] File is too large to preview (".toList ++
      toFixed2MB f.size ++ " MB). Please download to view.".toList
  else if isTextFile f then utf8Decode f.content
  else
    "[BINARY_OR_LARGE] Type: ".toList ++ f.type ++ ", Size: ".toList ++
      (toString f.size).toList ++ " bytes.".toList

/-- `path.split(sep)` for a single-character separator: JavaScript
string split, which yields one (possibly empty) field per separator
occurrence and never an empty list. -/
def splitChar (sep : Char) : List Char → List (List Char)
  | [] => [[]]
  | c :: rest =>
    if c = sep then [] :: splitChar sep rest
    else
      match splitChar sep rest with
      | [] => [[c]]
      | h :: t => (c :: h) :: t

/-- The extension-to-MIME table of `__opfs_getMimeType`. -/
def mimeMap : List (List Char × List Char) :=
  [ ( "jpg".toList, "image/jpeg".toList), ( "jpeg".toList, "image/jpeg".toList),
    ( "png".toList, "image/png".toList), ( "gif".toList, "image/gif".toList),
    ( "webp".toList, "image/webp".toList), ( "svg".toList, "image/svg+xml".toList),
    ( "ico".toList, "image/x-icon".toList), ( "bmp".toList, "image/bmp".toList),
    ( "avif".toList, "image/avif".toList), ( "json".toList, "application/json".toList),
    ( "js".toList, "application/javascript".toList),
    ( "html".toList, "text/html".toList), ( "css".toList, "text/css".toList),
    ( "xml".toList, "application/xml".toList), ( "md".toList, "text/markdown".toList),
    ( "txt".toList, "text/plain".toList) ]

/-- `__opfs_getMimeType`: the declared type if non-empty, else the table
entry for the last dot-separated component of the lowercased name, else
`application/octet-stream`. -/
def getMimeType (f : JsFile) : List Char :=
  if f.type ≠ [] then f.type
  else
    match List.lookup ((splitChar '.' (toLowerL f.name)).getLastD [])
        mimeMap with
    | some m => m
    | none => "application/octet-stream".toList

/-- The base64 alphabet. -/
def b64Char (n : Nat) : Char :=
  if n < 26 then Char.ofNat (65 + n)
  else if n < 52 then Char.ofNat (97 + (n - 26))
  else if n < 62 then Char.ofNat (48 + (n - 52))
  else if n = 62 then '+'
  else '/'

/-- `btoa` of a byte sequence (the image branch builds the binary string
in 8 KB chunks purely to avoid a call-stack overflow; the net effect is
base64 of the file bytes). -/
def base64Encode : List Nat → List Char
  | [] => []
  | [b0] =>
    [b64Char (b0 / 4), b64Char (b0 % 4 * 16), '=', '=']
  | [b0, b1] =>
    [b64Char (b0 / 4), b64Char (b0 % 4 * 16 + b1 / 16), b64Char (b1 % 16 * 4), '=']
  | b0 :: b1 :: b2 :: rest =>
    b64Char (b0 / 4) :: b64Char (b0 % 4 * 16 + b1 / 16) ::
      b64Char (b1 % 16 * 4 + b2 / 64) :: b64Char (b2 % 64) :: base64Encode rest

/-- The result record of `opfsApi.readWithMeta`. -/
structure FileReadResult where
  content : List Char
  mimeType : List Char
  size : Nat
  isBase64 : Bool
  detectedType : FileType
  isLargeText : Bool
deriving DecidableEq

/-- Embedding of the injected code of `opfsApi.readWithMeta` after the
file handle is obtained: compute the MIME type, detect the type (forced
to text when forceText is set), then return the image branch (base64
data URL up to 5 MB, else the too-large record), the text branch (content
up to the 10 MB cap, flagged isLargeText above 1 MB), the unknown branch,
or the binary branch. -/
def readWithMeta (f : JsFile) (forceText : Bool) : FileReadResult :=
  if (if forceText then FileType.text else detectFileType f) = FileType.image then
    if f.size > 5 * 1024 * 1024 then
      { content := "[TOO_LARGE] Image is too large to preview (".toList ++
          toFixed2MB f.size ++ " MB)".toList,
        mimeType := getMimeType f, size := f.size, isBase64 := false,
        detectedType := FileType.image, isLargeText := false }
    else
      { content := "data:".toList ++ getMimeType f ++ ";base64,".toList ++
          base64Encode f.content,
        mimeType := getMimeType f, size := f.size, isBase64 := true,
        detectedType := FileType.image, isLargeText := false }
  else if (if forceText then FileType.text else detectFileType f) = FileType.text then
    if f.size > 10 * 1024 * 1024 then
      { content := "[TOO_LARGE] File is too large to preview (".toList ++
          toFixed2MB f.size ++ " MB). Download to view.".toList,
        mimeType := getMimeType f, size := f.size, isBase64 := false,
        detectedType := FileType.text, isLargeText := false }
    else
      { content := utf8Decode f.content, mimeType := getMimeType f,
        size := f.size, isBase64 := false, detectedType := FileType.text,
        isLargeText := decide (f.size > 1024 * 1024) }
  else if (if forceText then FileType.text else detectFileType f) = FileType.unknown then
    { content := "[UNKNOWN_TYPE] Cannot determine whether this file is text or binary. Use \"Open as Text\" to force text editing, or download to inspect.".toList,
      mimeType := getMimeType f, size := f.size, isBase64 := false,
      detectedType := FileType.unknown, isLargeText := false }
  else
    { content := "[BINARY] Type: ".toList ++ getMimeType f ++ ", Size: ".toList ++
        (toString f.size).toList ++ " bytes".toList,
      mimeType := getMimeType f, size := f.size, isBase64 := false,
      detectedType := FileType.binary, isLargeText := false }

/-! ## exists operation and path resolution (api.ts lines 330-341 and
1005-1039) -/

/-- A node of the origin-private file system seen by the injected code:
a file, or a directory with named entries. -/
inductive FsNode where
  | file (content : List Nat)
  | dir (entries : List (List Char × FsNode))

/-- Lookup of a named entry in a directory's entry list. -/
def findEntry : List (List Char × FsNode) → List Char → Option FsNode
  | [], _ => none
  | (n, h) :: rest, key => if n = key then some h else findEntry rest key

/-- `getFileHandle(name)` without create: succeeds exactly on an
existing file entry, else throws (`none`). -/
def getFileH : FsNode → List Char → Option FsNode
  | FsNode.dir es, nm =>
    match findEntry es nm with
    | some (FsNode.file c) => some (FsNode.file c)
    | _ => none
  | FsNode.file _, _ => none

/-- `getDirectoryHandle(name)` without create: succeeds exactly on an
existing directory entry, else throws (`none`). -/
def getDirH : FsNode → List Char → Option FsNode
  | FsNode.dir es, nm =>
    match findEntry es nm with
    | some (FsNode.dir es2) => some (FsNode.dir es2)
    | _ => none
  | FsNode.file _, _ => none

/-- The directory walk of `__opfs_resolvePath` over path segments. -/
def walkDirs : FsNode → List (List Char) → Option FsNode
  | n, [] => some n
  | n, p :: ps =>
    match getDirH n p with
    | some d => walkDirs d ps
    | none => none

/-- `parts.join(sep)` for the single-character separator, as used by the
operation templates (`parts.join("/")`). -/
def joinSegs : List (List Char) → List Char
  | [] => []
  | [s] => s
  | s :: rest => s ++ '/' :: joinSegs rest

/-- `__opfs_resolvePath(path)`: the root for the empty path, else the
directory walk over the slash-split segments with empty segments
filtered out; `none` models the thrown lookup error. -/
def resolvePath (root : FsNode) (p : List Char) : Option FsNode :=
  if p = [] then some root
  else walkDirs root ((splitChar '/' p).filter (fun q => decide (0 < q.length)))

/-- The path logic of the injected `exists` code: true for the empty
path; else split, pop the final name, resolve the directory part
(failure caught to false), then true for an empty name, else try the
file handle then the directory handle, else false. -/
def existsCore (root : FsNode) (path : List Char) : Bool :=
  if path = [] then true
  else
    match resolvePath root (joinSegs ((splitChar '/' path).dropLast)) with
    | none => false
    | some dh =>
      if (splitChar '/' path).getLastD [] = [] then true
      else if (getFileH dh ((splitChar '/' path).getLastD [])).isSome then true
      else if (getDirH dh ((splitChar '/' path).getLastD [])).isSome then true
      else false

/-- Embedding of the injected code of `opfsApi.exists`: false when the
context is insecure or OPFS is unsupported, else the path logic. -/
def existsImpl (secure supported : Bool) (root : FsNode) (path : List Char) : Bool :=
  if !secure then false
  else if !supported then false
  else existsCore root path

/-- Reference lookup: descend from the root through the segments; the
path exists when a node (file or directory) is reached. -/
def lookupNode : FsNode → List (List Char) → Option FsNode
  | n, [] => some n
  | FsNode.file _, _ :: _ => none
  | FsNode.dir es, p :: ps =>
    match findEntry es p with
    | some child => lookupNode child ps
    | none => none

/-! ## Theorems for the escaper -/

theorem replaceAll_cons_ne {c t : Char} {rep : List Char} (h : c ≠ t)
    (s : List Char) : replaceAll t rep (c :: s) = c :: replaceAll t rep s := by
  simp [replaceAll, h]

theorem escapeString_cons_generic {c : Char}
    (h1 : c ≠ '\\') (h2 : c ≠ '\'') (h3 : c ≠ '"') (h4 : c ≠ '\n')
    (h5 : c ≠ '\r') (h6 : c ≠ '\t') (h7 : c ≠ Char.ofNat 0)
    (h8 : c ≠ Char.ofNat 0x2028) (h9 : c ≠ Char.ofNat 0x2029)
    (s : List Char) : escapeString (c :: s) = c :: escapeString s := by
  unfold escapeString
  rw [replaceAll_cons_ne h1, replaceAll_cons_ne h2, replaceAll_cons_ne h3,
    replaceAll_cons_ne h4, replaceAll_cons_ne h5, replaceAll_cons_ne h6,
    replaceAll_cons_ne h7, replaceAll_cons_ne h8, replaceAll_cons_ne h9]

theorem sqGo_escape (s : List Char) :
    sqGo (escapeString s ++ ['\'']) = some s := by
  induction s with
  | nil =>
    have e2 : escapeString [] ++ ['\''] = ['\''] := rfl
    rw [e2]; simp [sqGo]
  | cons c s ih =>
    by_cases h1 : c = '\\'
    · subst h1
      have e2 : escapeString ('\\' :: s) ++ ['\''] =
          '\\' :: '\\' :: (escapeString s ++ ['\'']) := rfl
      rw [e2]; simp [sqGo, ih]
    by_cases h2 : c = '\''
    · subst h2
      have e2 : escapeString ('\'' :: s) ++ ['\''] =
          '\\' :: '\'' :: (escapeString s ++ ['\'']) := rfl
      rw [e2]; simp [sqGo, ih]
    by_cases h3 : c = '"'
    · subst h3
      have e2 : escapeString ('"' :: s) ++ ['\''] =
          '\\' :: '"' :: (escapeString s ++ ['\'']) := rfl
      rw [e2]; simp [sqGo, ih]
    by_cases h4 : c = '\n'
    · subst h4
      have e2 : escapeString ('\n' :: s) ++ ['\''] =
          '\\' :: 'n' :: (escapeString s ++ ['\'']) := rfl
      rw [e2]; simp [sqGo, ih]
    by_cases h5 : c = '\r'
    · subst h5
      have e2 : escapeString ('\r' :: s) ++ ['\''] =
          '\\' :: 'r' :: (escapeString s ++ ['\'']) := rfl
      rw [e2]; simp [sqGo, ih]
    by_cases h6 : c = '\t'
    · subst h6
      have e2 : escapeString ('\t' :: s) ++ ['\''] =
          '\\' :: 't' :: (escapeString s ++ ['\'']) := rfl
      rw [e2]; simp [sqGo, ih]
    by_cases h7 : c = Char.ofNat 0
    · subst h7
      have e2 : escapeString (Char.ofNat 0 :: s) ++ ['\''] =
          '\\' :: 'x' :: '0' :: '0' :: (escapeString s ++ ['\'']) := rfl
      rw [e2]; simp [sqGo, hexVal, ih]
    by_cases h8 : c = Char.ofNat 0x2028
    · subst h8
      have e2 : escapeString (Char.ofNat 0x2028 :: s) ++ ['\''] =
          '\\' :: 'u' :: '2' :: '0' :: '2' :: '8' :: (escapeString s ++ ['\'']) := rfl
      rw [e2]; simp [sqGo, hexVal, ih]
    by_cases h9 : c = Char.ofNat 0x2029
    · subst h9
      have e2 : escapeString (Char.ofNat 0x2029 :: s) ++ ['\''] =
          '\\' :: 'u' :: '2' :: '0' :: '2' :: '9' :: (escapeString s ++ ['\'']) := rfl
      rw [e2]; simp [sqGo, hexVal, ih]
    · rw [show escapeString (c :: s) ++ ['\''] = c :: (escapeString s ++ ['\'']) by
        rw [escapeString_cons_generic h1 h2 h3 h4 h5 h6 h7 h8 h9]; rfl]
      simp [sqGo, h1, h2, h4, h5, ih]

/-- C1: for every string s, evaluating the single-quoted JavaScript
literal built from `escapeString s` — that is,
`eval ("'" ++ escapeString s ++ "'")` — yields exactly s. -/
theorem escapeString_roundtrip (s : List Char) :
    jsEvalSQ ('\'' :: (escapeString s ++ ['\''])) = some s := by
  simp only [jsEvalSQ, if_pos rfl]
  exact sqGo_escape s

/-! ## Theorems for the binary staging channel -/

theorem chunks_flatten_take (b : List Char) (n : Nat) :
    ((List.range n).map (fun i => sliceJs b (i * CHUNK) ((i + 1) * CHUNK))).flatten
      = b.take (n * CHUNK) := by
  induction n with
  | zero => simp
  | succ n ih =>
    rw [List.range_succ, List.map_append, List.flatten_append, ih]
    have h1 : (n + 1) * CHUNK - n * CHUNK = CHUNK := by
      simp only [CHUNK]
      omega
    simp only [List.map_cons, List.map_nil, List.flatten, sliceJs, h1, List.append_nil]
    rw [← List.take_add]
    have h2 : n * CHUNK + CHUNK = (n + 1) * CHUNK := by ring
    rw [h2]

theorem length_le_totalChunks_mul (len : Nat) : len ≤ totalChunks len * CHUNK := by
  unfold totalChunks CHUNK
  have h := Nat.div_add_mod (len + 65535) 65536
  have h2 : (len + 65535) % 65536 < 65536 := Nat.mod_lt _ (by norm_num)
  split <;> omega

/-- C2: `stageBinaryData` splits its input into 64 KB (65536-character)
slices whose in-order concatenation reproduces the input exactly, and the
number of slices is `ceil (len / 65536)` with a minimum of 1 for the
empty input. -/
theorem stageSlices_spec (b : List Char) :
    (stageSlices b).flatten = b ∧
    (stageSlices b).length = max ((b.length + 65535) / 65536) 1 ∧
    ∀ s ∈ stageSlices b, s.length ≤ 65536 := by
  refine ⟨?_, ?_, ?_⟩
  · rw [stageSlices, chunks_flatten_take]
    exact List.take_of_length_le (length_le_totalChunks_mul b.length)
  · simp only [stageSlices, List.length_map, List.length_range, totalChunks, CHUNK]
    split <;> omega
  · intro s hs
    simp only [stageSlices, List.mem_map, List.mem_range] at hs
    obtain ⟨i, _, rfl⟩ := hs
    simp only [sliceJs, CHUNK, List.length_take, List.length_drop]
    have h1 : (i + 1) * 65536 - i * 65536 = 65536 := by
      simp [Nat.succ_mul]
    omega

theorem stageLoop_fail {failAt : Nat → Bool} :
    ∀ (chunks : List (List Char)) (k : Nat) (st st1 : ScratchStore) (i : Nat),
    stageLoop failAt chunks k st = (st1, some i) →
    k ≤ i ∧ ∀ j, (j < k ∨ i ≤ j) → st1 j = st j := by
  intro chunks
  induction chunks with
  | nil =>
    intro k st st1 i h
    simp [stageLoop] at h
  | cons c rest ih =>
    intro k st st1 i h
    by_cases hf : failAt k
    · simp only [stageLoop, hf, if_true, Prod.mk.injEq] at h
      obtain ⟨rfl, h2⟩ := h
      obtain rfl : k = i := Option.some.inj h2
      exact ⟨le_refl k, fun j _ => rfl⟩
    · simp only [stageLoop, hf, if_false, Bool.false_eq_true] at h
      obtain ⟨hk, hst⟩ := ih (k + 1) (setItem st k c) st1 i h
      refine ⟨by omega, fun j hj => ?_⟩
      have hj' : j < k + 1 ∨ i ≤ j := by omega
      rw [hst j hj', setItem]
      have : j ≠ k := by omega
      simp [this]

theorem cleanupStore_apply (st : ScratchStore) :
    ∀ n j, cleanupStore st n j = if j < n then none else st j := by
  intro n
  induction n with
  | zero => intro j; simp [cleanupStore]
  | succ n ih =>
    intro j
    have e : cleanupStore st (n + 1) = removeItem (cleanupStore st n) n := by
      rw [cleanupStore, cleanupStore, List.range_succ, List.foldl_append]
      rfl
    rw [e]
    simp only [removeItem]
    rw [ih j]
    by_cases hj : j = n
    · subst hj; simp
    · by_cases hj2 : j < n
      · simp [hj, hj2, Nat.lt_succ_of_lt hj2]
      · have h3 : ¬ j < n + 1 := by omega
        simp [hj, hj2, h3]

/-- C3: if staging chunk i of `stageBinaryData` fails, every previously
staged chunk `0 .. i-1` for that (fresh, hence initially empty) key is
removed from the scratch storage before the original failure is
propagated as the rejection `some i`, leaving no orphaned scratch
entries. -/
theorem stageBinaryData_cleanup (base64 : List Char) (failAt : Nat → Bool)
    (st st1 : ScratchStore) (i : Nat)
    (hempty : ∀ j, st j = none)
    (h : stageBinaryData base64 failAt st = (st1, some i)) :
    ∀ j, st1 j = none := by
  unfold stageBinaryData at h
  rcases hl : stageLoop failAt (stageSlices base64) 0 st with ⟨st2, res⟩
  rw [hl] at h
  cases res with
  | none =>
    have h2 : (none : Option Nat) = some i := congrArg Prod.snd h
    exact absurd h2 (by simp)
  | some i2 =>
    have h1 : cleanupStore st2 i2 = st1 := congrArg Prod.fst h
    have h2 : some i2 = some i := congrArg Prod.snd h
    obtain rfl : i2 = i := Option.some.inj h2
    subst h1
    intro j
    rw [cleanupStore_apply]
    by_cases hj : j < i2
    · simp [hj]
    · simp only [hj, if_false]
      have hspec := stageLoop_fail (stageSlices base64) 0 st st2 i2 hl
      rw [hspec.2 j (Or.inr (by omega))]
      exact hempty j

theorem stageBinaryData_cleanup_witness :
    (∀ j : Nat, (fun _ : Nat => (none : Option (List Char))) j = none) ∧
    ∀ j : Nat,
      (stageBinaryData "abc".toList (fun _ => true) (fun _ => none)).1 j = none :=
  ⟨fun _ => rfl,
   stageBinaryData_cleanup "abc".toList (fun _ => true) (fun _ => none)
     (stageBinaryData "abc".toList (fun _ => true) (fun _ => none)).1 0
     (fun _ => rfl) rfl⟩

/-! ## Theorems for the dispatcher polling loop -/

theorem pollTrace_pending_aux (saf : Bool) (maxA : Nat) (env : Nat → ReadRes)
    (h : ∀ n, env n = ReadRes.pending) :
    ∀ k a, maxA - a = k →
      pollTrace saf maxA env a =
        List.replicate k PollEv.read ++ [PollEv.deleteSlot, PollEv.rejectTimeout] := by
  intro k
  induction k with
  | zero =>
    intro a ha
    rw [pollTrace]
    have hc : maxA < a + 1 := by omega
    simp [hc]
  | succ n ih =>
    intro a ha
    rw [pollTrace]
    have hc : ¬ maxA < a + 1 := by omega
    simp only [hc, if_false, h (a + 1)]
    rw [ih (a + 1) (by omega)]
    simp [List.replicate_succ]

/-- C4: for an operation whose scratch slot stays pending forever, the
dispatcher issues exactly `maxAttempts` slot-read polls, then best-effort
deletes the scratch slot and rejects with the timeout error, issuing no
further polls (the trace ends with the rejection). -/
theorem pollTrace_timeout (saf : Bool) (maxAttempts : Nat) (env : Nat → ReadRes)
    (h : ∀ n, env n = ReadRes.pending) :
    pollTrace saf maxAttempts env 0 =
      List.replicate maxAttempts PollEv.read ++
        [PollEv.deleteSlot, PollEv.rejectTimeout] :=
  pollTrace_pending_aux saf maxAttempts env h maxAttempts 0 (by omega)

theorem pollTrace_timeout_witness :
    (∀ n : Nat, (fun _ : Nat => ReadRes.pending) n = ReadRes.pending) ∧
    pollTrace false 3 (fun _ => ReadRes.pending) 0 =
      List.replicate 3 PollEv.read ++ [PollEv.deleteSlot, PollEv.rejectTimeout] :=
  ⟨fun _ => rfl, pollTrace_timeout false 3 (fun _ => ReadRes.pending) (fun _ => rfl)⟩

/-! ## Theorems for the eval adapter -/

/-- C7: when the host evaluation primitive throws a synchronous
exception, `executeEval` catches it and resolves with the tuple
`[undefined, structured error record]` instead of propagating; the
caller always receives the tuple form. -/
theorem executeEval_sync_throw (b : HostBehavior) (err : List Char)
    (h : hostInvoke b = Except.error err) :
    executeEval b = (EvalValue.undef, some (errRecord err)) := by
  unfold executeEval
  rw [h]

theorem executeEval_sync_throw_witness :
    hostInvoke (HostBehavior.throwsSync "boom".toList) = Except.error "boom".toList ∧
    executeEval (HostBehavior.throwsSync "boom".toList) =
      (EvalValue.undef, some (errRecord "boom".toList)) :=
  ⟨rfl, executeEval_sync_throw (HostBehavior.throwsSync "boom".toList)
    "boom".toList rfl⟩

/-! ## Theorems for the content-type classifier -/

/-- C5 counterexample: a size-0 file named a.png with empty MIME type
classifies as image - the image strategy runs before the empty-file rule
- and therefore not as text. -/
theorem detectFileType_empty_png :
    detectFileType { name := "a.png".toList, type := [], size := 0, content := [] } =
      FileType.image ∧ FileType.image ≠ FileType.text :=
  ⟨by decide, by decide⟩

/-- C5 (amended): a size-0 file that matches none of the image, MIME and
extension strategies classifies as text; a size-0 file matching an
earlier strategy takes that strategy's type instead. -/
theorem detectFileType_empty_after_strategies (f : JsFile)
    (h1 : isImageFile f = false) (h2 : mimeTextLike f.type = false)
    (h3 : mimeBinaryLike f.type = false) (h4 : extMatchesText f.name = false)
    (h5 : extMatchesBinary f.name = false) (h6 : f.size = 0) :
    detectFileType f = FileType.text := by
  simp [detectFileType, h1, h2, h3, h4, h5, h6]

theorem detectFileType_empty_after_strategies_witness :
    isImageFile { name := "q".toList, type := [], size := 0, content := [] } = false ∧
    detectFileType { name := "q".toList, type := [], size := 0, content := [] } =
      FileType.text :=
  ⟨by decide,
   detectFileType_empty_after_strategies
     { name := "q".toList, type := [], size := 0, content := [] }
     (by decide) (by decide) (by decide) (by decide) (by decide) rfl⟩

/-- C6 counterexample: the file named q with empty MIME type, size 1 and
single content byte 0x7F (DEL) satisfies every premise of the claim - no
image, MIME or extension strategy matches, no magic signature, no text
opener, and the sample has no null byte, no byte with the high bit set
(value at or above 0x80) and no non-whitespace control byte - yet the
classifier returns binary, not text: the code counts 0x7F among the high
bytes, so the one-byte sample is 100 percent high bytes. -/
theorem detectFileType_del_counterexample :
    isImageFile { name := "q".toList, type := [], size := 1, content := [127] } = false ∧
    mimeTextLike [] = false ∧
    mimeBinaryLike [] = false ∧
    extMatchesText ( "q".toList) = false ∧
    extMatchesBinary ( "q".toList) = false ∧
    magicMatch (sampleBytes { name := "q".toList, type := [], size := 1, content := [127] }) = false ∧
    probeText (sampleBytes { name := "q".toList, type := [], size := 1, content := [127] }) = false ∧
    (∀ b ∈ sampleBytes { name := "q".toList, type := [], size := 1, content := [127] },
      b ≠ 0 ∧ b < 0x80 ∧ (b < 0x20 → b = 9 ∨ b = 10 ∨ b = 13)) ∧
    detectFileType { name := "q".toList, type := [], size := 1, content := [127] } =
      FileType.binary := by
  have h1 : sampleBytes { name := "q".toList, type := [], size := 1, content := [127] } = [127] := rfl
  have h2 : utf8Decode [127] = [Char.ofNat 127] := by simp [utf8Decode]
  have hp : probeText (sampleBytes { name := "q".toList, type := [], size := 1, content := [127] }) = false := by
    rw [h1]
    simp only [probeText, h2]
    decide
  exact ⟨by decide, by decide, by decide, by decide, by decide, by decide, hp,
    by decide, by decide⟩

theorem byteStats_zero (l : List Nat)
    (h : ∀ b ∈ l, b ≠ 0 ∧ b ≤ 0x7E ∧ (b < 0x20 → b = 9 ∨ b = 10 ∨ b = 13)) :
    byteStats l = (0, 0, 0) := by
  induction l with
  | nil => rfl
  | cons b rest ih =>
    obtain ⟨hb1, hb2, hb3⟩ := h b (List.mem_cons_self b rest)
    have ih2 := ih (fun x hx => h x (List.mem_cons_of_mem b hx))
    have e2 : ¬ (0x7E : Nat) < b := by omega
    have e3 : ¬ (b < 0x20 ∧ b ≠ 9 ∧ b ≠ 10 ∧ b ≠ 13) := by
      intro hc
      rcases hb3 hc.1 with h9 | h10 | h13
      · exact hc.2.1 h9
      · exact hc.2.2.1 h10
      · exact hc.2.2.2 h13
    simp [byteStats, hb1, e2, e3, ih2]

/-- C6 (amended): a non-empty file matching none of the image, MIME and
extension strategies, whose sample matches no magic-byte signature and no
text-format opener, and whose sample contains no null byte, no byte with
value above 0x7E (the code counts 0x7F as a high byte, not only values at
or above 0x80) and no non-whitespace control byte, classifies as text. -/
theorem sniff_printable_ascii_text (f : JsFile)
    (h1 : isImageFile f = false) (h2 : mimeTextLike f.type = false)
    (h3 : mimeBinaryLike f.type = false) (h4 : extMatchesText f.name = false)
    (h5 : extMatchesBinary f.name = false) (h6 : f.size ≠ 0)
    (h7 : magicMatch (sampleBytes f) = false)
    (h8 : probeText (sampleBytes f) = false)
    (h9 : ∀ b ∈ sampleBytes f,
      b ≠ 0 ∧ b ≤ 0x7E ∧ (b < 0x20 → b = 9 ∨ b = 10 ∨ b = 13)) :
    detectFileType f = FileType.text := by
  have hs := byteStats_zero (sampleBytes f) h9
  simp [detectFileType, h1, h2, h3, h4, h5, h6, sniffBytes, h7, h8, hs]

theorem sniff_printable_ascii_text_witness :
    probeText (sampleBytes { name := "q".toList, type := [], size := 2, content := [104, 105] }) = false ∧
    detectFileType { name := "q".toList, type := [], size := 2, content := [104, 105] } =
      FileType.text := by
  have h1 : sampleBytes { name := "q".toList, type := [], size := 2, content := [104, 105] } = [104, 105] := rfl
  have h2 : utf8Decode [104, 105] = [Char.ofNat 104, Char.ofNat 105] := by
    simp [utf8Decode]
  have hp : probeText (sampleBytes { name := "q".toList, type := [], size := 2, content := [104, 105] }) = false := by
    rw [h1]
    simp only [probeText, h2]
    decide
  exact ⟨hp, sniff_printable_ascii_text
    { name := "q".toList, type := [], size := 2, content := [104, 105] }
    (by decide) (by decide) (by decide) (by decide) (by decide) (by decide)
    (by decide) hp (by decide)⟩

/-! ## Theorems for read and readWithMeta -/

/-- C8: for every file strictly larger than 1 MiB, `read` returns the
fixed large-file sentinel beginning with the `[BINARY_OR_LARGE]` marker,
never the file's content: the result is independent of the content, and
the size check runs before the text-file check (text files included). -/
theorem readResult_large (f : JsFile) (h : 1024 * 1024 < f.size) :
    readResult f =
      "[BINARY_OR_LARGE] File is too large to preview (".toList ++
        toFixed2MB f.size ++ " MB). Please download to view.".toList ∧
    (readResult f).take 17 = "[BINARY_OR_LARGE]".toList ∧
    ∀ c : List Nat, readResult f = readResult { f with content := c } := by
  have e : readResult f =
      "[BINARY_OR_LARGE] File is too large to preview (".toList ++
        toFixed2MB f.size ++ " MB). Please download to view.".toList := by
    unfold readResult
    rw [if_pos h]
  refine ⟨e, ?_, ?_⟩
  · rw [e]
    rfl
  · intro c
    rw [e]
    have e2 : readResult { f with content := c } =
        "[BINARY_OR_LARGE] File is too large to preview (".toList ++
          toFixed2MB f.size ++ " MB). Please download to view.".toList := by
      unfold readResult
      rw [if_pos (show 1024 * 1024 < (JsFile.mk f.name f.type f.size c).size from h)]
    rw [e2]

theorem readResult_large_witness :
    1024 * 1024 < (1048577 : Nat) ∧
    (readResult { name := "a.txt".toList, type := [], size := 1048577, content := [] }).take 17 = "[BINARY_OR_LARGE]".toList :=
  ⟨by norm_num,
   (readResult_large
      { name := "a.txt".toList, type := [], size := 1048577, content := [] }
      (by norm_num)).2.1⟩

/-- C10: `readWithMeta` flags `isLargeText` exactly when the detected
type is text and the size is strictly above 1 MiB and at most 10 MiB;
every other branch (image, binary, unknown, over-limit text, over-limit
image) returns `isLargeText = false`. -/
theorem readWithMeta_isLargeText (f : JsFile) (forceText : Bool) :
    (readWithMeta f forceText).isLargeText = true ↔
      ((readWithMeta f forceText).detectedType = FileType.text ∧
        1024 * 1024 < f.size ∧ f.size ≤ 10 * 1024 * 1024) := by
  unfold readWithMeta
  rcases hdt : (if forceText then FileType.text else detectFileType f) with _ | _ | _ | _
  · rw [if_neg (by decide), if_pos rfl]
    by_cases h10 : f.size > 10 * 1024 * 1024
    · rw [if_pos h10]
      show false = true ↔ (FileType.text = FileType.text ∧
        1024 * 1024 < f.size ∧ f.size ≤ 10 * 1024 * 1024)
      constructor
      · intro hc
        exact absurd hc (by decide)
      · rintro ⟨-, -, hle⟩
        omega
    · rw [if_neg h10]
      show decide (f.size > 1024 * 1024) = true ↔ (FileType.text = FileType.text ∧
        1024 * 1024 < f.size ∧ f.size ≤ 10 * 1024 * 1024)
      rw [decide_eq_true_eq]
      constructor
      · intro h1
        exact ⟨rfl, h1, by omega⟩
      · rintro ⟨-, h1, -⟩
        exact h1
  · rw [if_neg (by decide), if_neg (by decide), if_neg (by decide)]
    show false = true ↔ (FileType.binary = FileType.text ∧
      1024 * 1024 < f.size ∧ f.size ≤ 10 * 1024 * 1024)
    simp
  · rw [if_pos rfl]
    by_cases h5 : f.size > 5 * 1024 * 1024
    · rw [if_pos h5]
      show false = true ↔ (FileType.image = FileType.text ∧
        1024 * 1024 < f.size ∧ f.size ≤ 10 * 1024 * 1024)
      simp
    · rw [if_neg h5]
      show false = true ↔ (FileType.image = FileType.text ∧
        1024 * 1024 < f.size ∧ f.size ≤ 10 * 1024 * 1024)
      simp
  · rw [if_neg (by decide), if_neg (by decide), if_pos rfl]
    show false = true ↔ (FileType.unknown = FileType.text ∧
      1024 * 1024 < f.size ∧ f.size ≤ 10 * 1024 * 1024)
    simp

/-! ## Theorems for the exists operation -/

theorem splitChar_no_sep (sep : Char) : ∀ s : List Char, sep ∉ s →
    splitChar sep s = [s] := by
  intro s
  induction s with
  | nil => intro _; rfl
  | cons c rest ih =>
    intro h
    have hc : ¬ c = sep := fun e => h (e ▸ List.mem_cons_self c rest)
    have hr : sep ∉ rest := fun m => h (List.mem_cons_of_mem c m)
    simp [splitChar, hc, ih hr]

theorem splitChar_append (sep : Char) : ∀ s t : List Char, sep ∉ s →
    splitChar sep (s ++ sep :: t) = s :: splitChar sep t := by
  intro s
  induction s with
  | nil =>
    intro t _
    simp [splitChar]
  | cons c s2 ih =>
    intro t h
    have hc : ¬ c = sep := fun e => h (e ▸ List.mem_cons_self c s2)
    have hr : sep ∉ s2 := fun m => h (List.mem_cons_of_mem c m)
    simp [splitChar, hc, ih t hr]

theorem splitChar_joinSegs : ∀ segs : List (List Char), segs ≠ [] →
    (∀ s ∈ segs, '/' ∉ s) → splitChar '/' (joinSegs segs) = segs := by
  intro segs
  induction segs with
  | nil => intro h _; exact absurd rfl h
  | cons s tail ih =>
    intro _ hsep
    cases tail with
    | nil => exact splitChar_no_sep '/' s (hsep s (by simp))
    | cons s2 rest =>
      have e : joinSegs (s :: s2 :: rest) = s ++ '/' :: joinSegs (s2 :: rest) := rfl
      rw [e, splitChar_append '/' s (joinSegs (s2 :: rest)) (hsep s (by simp))]
      rw [ih (by simp) (fun x hx => hsep x (by simp [hx]))]

theorem joinSegs_ne_nil : ∀ segs : List (List Char), segs ≠ [] →
    (∀ s ∈ segs, s ≠ []) → joinSegs segs ≠ [] := by
  intro segs
  cases segs with
  | nil => intro h _; exact absurd rfl h
  | cons s tail =>
    intro _ hmem
    cases tail with
    | nil => exact hmem s (by simp)
    | cons s2 rest => simp [joinSegs]

theorem lookupNode_file_ne_nil (c : List Nat) :
    ∀ l : List (List Char), l ≠ [] → lookupNode (FsNode.file c) l = none := by
  intro l hl
  cases l with
  | nil => exact absurd rfl hl
  | cons a as => rfl

theorem walk_last_lookup : ∀ (init : List (List Char)) (root : FsNode)
    (lst : List Char),
    (match walkDirs root init with
     | none => false
     | some dh =>
       if (getFileH dh lst).isSome then true
       else if (getDirH dh lst).isSome then true
       else false)
    = (lookupNode root (init ++ [lst])).isSome := by
  intro init
  induction init with
  | nil =>
    intro root lst
    cases root with
    | file c => rfl
    | dir es =>
      cases hfe : findEntry es lst with
      | none => simp [walkDirs, getFileH, getDirH, lookupNode, hfe]
      | some child =>
        cases child with
        | file c2 => simp [walkDirs, getFileH, getDirH, lookupNode, hfe]
        | dir es2 => simp [walkDirs, getFileH, getDirH, lookupNode, hfe]
  | cons p init2 ih =>
    intro root lst
    cases root with
    | file c => simp [walkDirs, getDirH, lookupNode]
    | dir es =>
      cases hfe : findEntry es p with
      | none => simp [walkDirs, getDirH, lookupNode, hfe]
      | some child =>
        cases child with
        | file c2 =>
          simp only [walkDirs, getDirH, hfe, List.cons_append, lookupNode]
          cases init2 with
          | nil => rfl
          | cons q qs => rfl
        | dir es2 =>
          simp only [walkDirs, getDirH, hfe, List.cons_append, lookupNode]
          exact ih (FsNode.dir es2) lst

/-- C9: `exists` never rejects because a path is absent or unreachable:
it is false in an insecure or unsupported context, true for the empty
(root) path in a supported secure context, and, for a slash-joined path
of non-empty separator-free segments, true exactly when the path
resolves to a file or directory node and false (rather than throwing)
when resolution or handle lookup fails. -/
theorem existsImpl_no_reject (sec sup : Bool) (root : FsNode)
    (segs : List (List Char)) (hne : segs ≠ [])
    (hseg : ∀ s ∈ segs, s ≠ [] ∧ '/' ∉ s) :
    existsImpl false sup root (joinSegs segs) = false ∧
    existsImpl sec false root (joinSegs segs) = false ∧
    existsImpl true true root [] = true ∧
    existsImpl true true root (joinSegs segs) = (lookupNode root segs).isSome := by
  refine ⟨rfl, by cases sec <;> rfl, rfl, ?_⟩
  rcases List.eq_nil_or_concat segs with rfl | ⟨init, lst, rfl⟩
  · exact absurd rfl hne
  · rw [List.concat_eq_append] at hne hseg ⊢
    have hlst : lst ≠ [] := (hseg lst (by simp)).1
    have hsplit : splitChar '/' (joinSegs (init ++ [lst])) = init ++ [lst] :=
      splitChar_joinSegs (init ++ [lst]) hne (fun s hs => (hseg s hs).2)
    have hpne : joinSegs (init ++ [lst]) ≠ [] :=
      joinSegs_ne_nil (init ++ [lst]) hne (fun s hs => (hseg s hs).1)
    have e0 : existsImpl true true root (joinSegs (init ++ [lst])) =
        existsCore root (joinSegs (init ++ [lst])) := rfl
    rw [e0]
    unfold existsCore
    rw [if_neg hpne, hsplit, List.dropLast_concat, List.getLastD_concat]
    have hres : resolvePath root (joinSegs init) = walkDirs root init := by
      by_cases hi : init = []
      · subst hi; rfl
      · unfold resolvePath
        rw [if_neg (joinSegs_ne_nil init hi
          (fun s hs => (hseg s (List.mem_append_left [lst] hs)).1))]
        rw [splitChar_joinSegs init hi
          (fun s hs => (hseg s (List.mem_append_left [lst] hs)).2)]
        rw [List.filter_eq_self.mpr (fun s hs => by
          simpa [List.length_pos] using
            (hseg s (List.mem_append_left [lst] hs)).1)]
    rw [hres, ← walk_last_lookup init root lst]
    cases walkDirs root init with
    | none => rfl
    | some dh => exact if_neg hlst

theorem existsImpl_no_reject_witness :
    ([ "a".toList ] ≠ ([] : List (List Char))) ∧
    (∀ s ∈ [ "a".toList ], s ≠ ([] : List Char) ∧ '/' ∉ s) ∧
    existsImpl true true (FsNode.dir [( "a".toList, FsNode.file [])])
        (joinSegs [ "a".toList ]) =
      (lookupNode (FsNode.dir [( "a".toList, FsNode.file [])])
        [ "a".toList ]).isSome :=
  ⟨by decide, by decide,
   (existsImpl_no_reject true true (FsNode.dir [( "a".toList, FsNode.file [])])
     [ "a".toList ] (by decide) (by decide)).2.2.2⟩
